import Mathlib

/-!
Shallow embedding of the SkSL recursive-descent parser core
(`src/sksl/SkSLParser.h`, sampled as `src/unnamed/part_000`).

The sampled sources contain the parser's header: the `Checkpoint` class with
its inline constructor and `rewind()` body, the `getNode` bounds assertion, the
`fDepth` recursion counter, the `LayoutToken` enumeration, and the documented
signatures of every grammar rule.  The rule bodies (`SkSLParser.cpp`) and the
collaborator classes (lexer, symbol table, error reporter, `Layout`) are not in
the sample; where a definition depends on them it is modelled from the spec, as
noted in its doc comment.  Machine integers are modelled as `Nat`/`Int` (none
of the embedded quantities can overflow in the scenarios considered).
-/

set_option maxRecDepth 100000

namespace SkSL

/-- Terminal token categories of the SkSL lexer (`Token.fKind` in the source).
Modelled from the spec: the lexer is an external collaborator; this enumeration
covers the kinds the embedded grammar rules dispatch on. -/
inductive TokenKind where
  | TK_NONE
  | TK_END_OF_FILE
  | TK_IDENTIFIER
  | TK_INT_LITERAL
  | TK_FLOAT_LITERAL
  | TK_TRUE_LITERAL
  | TK_FALSE_LITERAL
  | TK_LPAREN
  | TK_RPAREN
  | TK_LBRACKET
  | TK_RBRACKET
  | TK_LBRACE
  | TK_RBRACE
  | TK_DOT
  | TK_COMMA
  | TK_SEMICOLON
  | TK_LAYOUT
  | TK_EQ
  | TK_PLUSEQ
  | TK_MINUSEQ
  | TK_STAREQ
  | TK_SLASHEQ
  | TK_PERCENTEQ
  | TK_SHLEQ
  | TK_SHREQ
  | TK_BITWISEANDEQ
  | TK_BITWISEXOREQ
  | TK_BITWISEOREQ
  | TK_QUESTION
  | TK_COLON
  | TK_LOGICALOR
  | TK_LOGICALXOR
  | TK_LOGICALAND
  | TK_BITWISEOR
  | TK_BITWISEXOR
  | TK_BITWISEAND
  | TK_EQEQ
  | TK_NEQ
  | TK_LT
  | TK_GT
  | TK_LTEQ
  | TK_GTEQ
  | TK_SHL
  | TK_SHR
  | TK_PLUS
  | TK_MINUS
  | TK_STAR
  | TK_SLASH
  | TK_PERCENT
  | TK_PLUSPLUS
  | TK_MINUSMINUS
  | TK_LOGICALNOT
  | TK_BITWISENOT
deriving DecidableEq

/-- A lexer token: `{kind, start offset, length}` per the spec data model.
Immutable value type, freely copied. -/
structure Token where
  fKind : TokenKind
  fOffset : Nat
  fLength : Nat
deriving DecidableEq

/-- The token the `fPushback` slot holds when it is empty: kind `TK_NONE`. -/
def Token.none : Token := ⟨.TK_NONE, 0, 0⟩

/-- Modelled from the spec: the black-box lexer, a stream of semantically
significant tokens with an integer raw position supporting
`getCheckpoint`/`rewindToCheckpoint`. -/
structure Lexer where
  fTokens : List Token
  fPos : Nat
deriving DecidableEq

/-- Modelled from the spec: the lexer returns the token at the current position
and advances; an exhausted stream yields `TK_END_OF_FILE` without advancing. -/
def Lexer.next (l : Lexer) : Token × Lexer :=
  match l.fTokens.get? l.fPos with
  | some t => (t, { l with fPos := l.fPos + 1 })
  | Option.none => (⟨.TK_END_OF_FILE, 0, 0⟩, l)

/-- The lexer's raw position, snapshotted by `Parser::Checkpoint`. -/
def Lexer.getCheckpoint (l : Lexer) : Nat := l.fPos

/-- Restores the lexer to a previously obtained checkpoint position. -/
def Lexer.rewindToCheckpoint (l : Lexer) (c : Nat) : Lexer := { l with fPos := c }

/-- Modelled from the spec: the error reporter, a sink of diagnostic texts whose
count can be read and reset; resetting the count to an earlier value silently
retracts the diagnostics reported since. -/
structure ErrorReporter where
  fErrorTexts : List String
deriving DecidableEq

/-- Number of errors reported so far. -/
def ErrorReporter.errorCount (e : ErrorReporter) : Nat := e.fErrorTexts.length

/-- Reports one diagnostic. -/
def ErrorReporter.error (e : ErrorReporter) (msg : String) : ErrorReporter :=
  ⟨e.fErrorTexts ++ [msg]⟩

/-- Resets the error count to `n`, retracting the diagnostics beyond it
(consumed by `Checkpoint::rewind`). -/
def ErrorReporter.setErrorCount (e : ErrorReporter) (n : Nat) : ErrorReporter :=
  ⟨e.fErrorTexts.take n⟩

/-- A node identifier: an opaque integer index into the arena (`ASTNode::ID`
with its `fValue` field); `-1` is the invalid sentinel meaning "no node". -/
structure NodeID where
  fValue : Int
deriving DecidableEq

/-- The distinguished invalid node identifier. -/
def NodeID.invalid : NodeID := ⟨-1⟩

/-- Whether a node identifier is the valid (non-sentinel) case. -/
def NodeID.isValid (id : NodeID) : Bool := 0 ≤ id.fValue

/-- AST node kinds with their kind-specific payloads (operator kind, literal
value, name text).  Modelled from the spec: the tagged-variant node of §3. -/
inductive NodeKind where
  | fileK
  | identifierK (name : String)
  | intLiteralK (value : Int)
  | floatLiteralK (text : String)
  | boolLiteralK (value : Bool)
  | binaryK (op : TokenKind)
  | ternaryK
  | unaryPreK (op : TokenKind)
  | unaryPostK (op : TokenKind)
  | indexK
  | fieldK (name : String)
  | callK
  | varDeclK (typeName : String) (name : String)
deriving DecidableEq

/-- One AST node: kind, source offset, and the ordered child identifiers. -/
structure ASTNode where
  fKind : NodeKind
  fOffset : Nat
  fChildren : List NodeID
deriving DecidableEq

/-- The node a `resize` that grows the arena would default-construct. -/
def ASTNode.default : ASTNode := ⟨.fileK, 0, []⟩

/-- The compilation unit (`ASTFile`): the single node arena plus the top-level
ordered sequence of root node identifiers (declarations in source order). -/
structure ASTFile where
  fNodes : List ASTNode
  fRoots : List NodeID
deriving DecidableEq

/-- `std::vector::resize(n)`: truncates to the first `n` elements, or pads with
default-constructed nodes when the vector is shorter than `n`. -/
def vectorResize (l : List ASTNode) (n : Nat) : List ASTNode :=
  l.take n ++ List.replicate (n - l.length) ASTNode.default

/-- The parser state: source text, lexer, recursion-depth counter `fDepth`,
the one-token pushback slot `fPushback`, the symbol table (modelled from the
spec as the set of declared type names), the error reporter, and the owned
`ASTFile` being built.  Mirrors the data members of `class Parser`. -/
structure Parser where
  fText : String
  fLexer : Lexer
  fDepth : Nat
  fPushback : Token
  fTypes : List String
  fErrors : ErrorReporter
  fFile : ASTFile
deriving DecidableEq

/-- Maps a token to its textual fragment of the source buffer
(`Parser::text`). -/
def Parser.text (p : Parser) (t : Token) : String :=
  String.mk ((p.fText.data.drop t.fOffset).take t.fLength)

/-- Returns the next token: the pushback slot if occupied, else the next lexer
token.  Modelled from the spec (§4.1); the modelled lexer stream contains only
semantically significant tokens, so the whitespace-skipping loop of
`Parser::nextToken` is the identity here. -/
def Parser.nextToken (p : Parser) : Token × Parser :=
  if p.fPushback.fKind ≠ .TK_NONE then
    (p.fPushback, { p with fPushback := Token.none })
  else
    let (t, l) := p.fLexer.next
    (t, { p with fLexer := l })

/-- Pushes a single token back onto the parse stream (`Parser::pushback`); only
one level of pushback is supported by contract. -/
def Parser.pushback (p : Parser) (t : Token) : Parser :=
  { p with fPushback := t }

/-- Returns the next token without consuming it (`Parser::peek`). -/
def Parser.peek (p : Parser) : Token × Parser :=
  let (t, p1) := p.nextToken
  (t, p1.pushback t)

/-- Reports an error at a token (`Parser::error`). -/
def Parser.errorAt (p : Parser) (msg : String) : Parser :=
  { p with fErrors := p.fErrors.error msg }

/-- The sequence of tokens still to be consumed: the pushback slot (if
occupied) followed by the unread tail of the lexer stream. -/
def Parser.streamView (p : Parser) : List Token :=
  (if p.fPushback.fKind = TokenKind.TK_NONE then [] else [p.fPushback])
    ++ p.fLexer.fTokens.drop p.fLexer.fPos

/-- Modelled from the spec (§4.2, and the header doc comment of
`Parser::checkNext`): consumes and returns the next token if its kind matches;
otherwise pushes it back and returns nothing, emitting no diagnostic. -/
def Parser.checkNext (p : Parser) (kind : TokenKind) : Option Token × Parser :=
  let (next, p1) := p.nextToken
  if next.fKind = kind then (some next, p1)
  else (Option.none, p1.pushback next)

/-- Modelled from the spec (§4.2, and the header doc comment of
`Parser::expect`): consumes the next token; on kind mismatch reports
"expected <expected>, but found '<actual text>'" and returns nothing, without
rewinding the consumed token. -/
def Parser.expect (p : Parser) (kind : TokenKind) (expected : String) :
    Option Token × Parser :=
  let (next, p1) := p.nextToken
  if next.fKind = kind then (some next, p1)
  else
    (Option.none,
      p1.errorAt ("expected " ++ expected ++ ", but found \x27" ++ p1.text next ++ "\x27"))

/-- Whether `name` denotes a declared type (`Parser::isType`); modelled from
the spec as a pure query of the symbol table. -/
def Parser.isType (p : Parser) (name : String) : Bool :=
  p.fTypes.contains name

/-- Modelled from the spec (§4.2, and the header doc comment of
`Parser::expectIdentifier`): like `expect(TK_IDENTIFIER)`, but rejects tokens
that lexically match a known type name, reporting
"expected an identifier, but found type '<name>'". -/
def Parser.expectIdentifier (p : Parser) : Option Token × Parser :=
  match p.expect .TK_IDENTIFIER "an identifier" with
  | (some t, p1) =>
      if p1.isType (p1.text t) then
        (Option.none,
          p1.errorAt ("expected an identifier, but found type \x27" ++ p1.text t ++ "\x27"))
      else (some t, p1)
  | (Option.none, p1) => (Option.none, p1)

/-- Appends a fresh childless node to the arena and returns its identifier
(`Parser::createNode`). -/
def Parser.createNode (p : Parser) (kind : NodeKind) (offset : Nat) :
    NodeID × Parser :=
  (⟨Int.ofNat p.fFile.fNodes.length⟩,
    { p with fFile := { p.fFile with fNodes := p.fFile.fNodes ++ [⟨kind, offset, []⟩] } })

/-- Appends `child` to the child list of node `target` (`Parser::addChild`);
the identifiers must be in range of the arena (the `getNode` assertion),
out-of-range identifiers leave the arena unchanged. -/
def Parser.addChild (p : Parser) (target child : NodeID) : Parser :=
  if 0 ≤ target.fValue ∧ target.fValue < (p.fFile.fNodes.length : Int) then
    { p with fFile :=
      { p.fFile with fNodes :=
          match p.fFile.fNodes.get? target.fValue.toNat with
          | some node =>
              p.fFile.fNodes.set target.fValue.toNat
                { node with fChildren := node.fChildren ++ [child] }
          | Option.none => p.fFile.fNodes } }
  else p

/-- Looks a node up in the arena (`Parser::getNode`, made total: the source
asserts `0 <= id.fValue < fNodes.size()`). -/
def Parser.getNodeOpt (p : Parser) (id : NodeID) : Option ASTNode :=
  if 0 ≤ id.fValue then p.fFile.fNodes.get? id.fValue.toNat else Option.none

/-- Appends a declaration to the compilation unit's root sequence. -/
def Parser.appendRoot (p : Parser) (r : NodeID) : Parser :=
  { p with fFile := { p.fFile with fRoots := p.fFile.fRoots ++ [r] } }

/-- Modelled from the spec (§4.5): the fixed recursion limit the depth guard
checks `fDepth` against (the constant itself is in the unsampled `.cpp`). -/
def maxParseDepth : Nat := 50

/-- Modelled from the spec (§4.5): the diagnostic the depth guard reports. -/
def nestingMsg : String := "nesting too deep"

/-- Decimal value of an integer-literal token's text (the `strtol` call inside
`Parser::intLiteral`, for the nonnegative decimal literals modelled here). -/
def parseIntText (s : String) : Int :=
  Int.ofNat (s.data.foldl (fun acc c => acc * 10 + (c.toNat - 48)) 0)

/-- The eleven left-associative binary precedence levels of §4.6, loosest
first: logical-or down to multiplicative. -/
inductive BinLevel where
  | lor | lxor | land | bor | bxor | band | eq | rel | shift | add | mul
deriving DecidableEq

/-- The operator token kinds recognized at each binary level (§4.6). -/
def binaryOps : BinLevel → List TokenKind
  | .lor => [.TK_LOGICALOR]
  | .lxor => [.TK_LOGICALXOR]
  | .land => [.TK_LOGICALAND]
  | .bor => [.TK_BITWISEOR]
  | .bxor => [.TK_BITWISEXOR]
  | .band => [.TK_BITWISEAND]
  | .eq => [.TK_EQEQ, .TK_NEQ]
  | .rel => [.TK_LT, .TK_GT, .TK_LTEQ, .TK_GTEQ]
  | .shift => [.TK_SHL, .TK_SHR]
  | .add => [.TK_PLUS, .TK_MINUS]
  | .mul => [.TK_STAR, .TK_SLASH, .TK_PERCENT]

/-- The assignment-operator token kinds (right-associative level of §4.6). -/
def assignmentOps : List TokenKind :=
  [.TK_EQ, .TK_PLUSEQ, .TK_MINUSEQ, .TK_STAREQ, .TK_SLASHEQ, .TK_PERCENTEQ,
   .TK_SHLEQ, .TK_SHREQ, .TK_BITWISEANDEQ, .TK_BITWISEXOREQ, .TK_BITWISEOREQ]

/-- The unary operator token kinds (prefix inc/dec, unary `+ - ! ~`). -/
def unaryOps : List TokenKind :=
  [.TK_PLUSPLUS, .TK_MINUSMINUS, .TK_PLUS, .TK_MINUS, .TK_LOGICALNOT, .TK_BITWISENOT]

/-- The grammar-rule selector for the single fueled interpreter of the
expression ladder: one constructor per §4.6 rule, the loop frames carrying
their accumulated left/base/call node. -/
inductive Frame where
  | exprF
  | assignF
  | ternaryF
  | binF (lvl : BinLevel)
  | binLoopF (lvl : BinLevel) (left : NodeID)
  | tighterF (lvl : BinLevel)
  | unaryF
  | postF
  | sufLoopF (base : NodeID)
  | argsF (node : NodeID)
  | termF
deriving DecidableEq

/-- Modelled from the spec (§4.5, §4.6): the expression-precedence ladder as a
single fueled interpreter over the rule frames; every recursive call decreases
the fuel, which makes the embedding total.  `exprF` is the self-recursive
entry guarded by the `AutoDepth` scoped counter: `fDepth` is incremented on
entry, checked against `maxParseDepth` (reporting "nesting too deep" and
returning the invalid node when exceeded), and decremented on every exit path.
The binary levels parse the next-tighter level and then loop left-
associatively on their operators; assignment and ternary are right-associative;
`termF` parses literals, identifiers and parenthesized sub-expressions; the
suffix loop handles indexing, member access, calls and postfix inc/dec.
`argsF` parses a call's comma-separated argument list, returning the call node
on success and the invalid node on failure. -/
def Parser.parseRule : Nat → Frame → Parser → NodeID × Parser
  | 0, fr, p =>
      (match fr with
       | .binLoopF _ left => (left, p)
       | .sufLoopF base => (base, p)
       | _ => (NodeID.invalid, p))
  | fuel+1, fr, p =>
    match fr with
    | .exprF =>
      let p1 : Parser := { p with fDepth := p.fDepth + 1 }
      if maxParseDepth < p1.fDepth then
        (NodeID.invalid, { p1.errorAt nestingMsg with fDepth := p1.fDepth - 1 })
      else
        let (r, p2) := Parser.parseRule fuel .assignF p1
        (r, { p2 with fDepth := p2.fDepth - 1 })
    | .assignF =>
      let (left, p1) := Parser.parseRule fuel .ternaryF p
      if left.isValid then
        let (t, p2) := p1.nextToken
        if assignmentOps.contains t.fKind then
          let (right, p3) := Parser.parseRule fuel .assignF p2
          if right.isValid then
            let (node, p4) := p3.createNode (.binaryK t.fKind) t.fOffset
            (node, (p4.addChild node left).addChild node right)
          else (NodeID.invalid, p3)
        else (left, p2.pushback t)
      else (NodeID.invalid, p1)
    | .ternaryF =>
      let (base, p1) := Parser.parseRule fuel (.binF .lor) p
      if base.isValid then
        match p1.checkNext .TK_QUESTION with
        | (some q, p2) =>
          let (trueExpr, p3) := Parser.parseRule fuel .exprF p2
          if trueExpr.isValid then
            match p3.expect .TK_COLON "\x27:\x27" with
            | (some _, p4) =>
              let (falseExpr, p5) := Parser.parseRule fuel .assignF p4
              if falseExpr.isValid then
                let (node, p6) := p5.createNode .ternaryK q.fOffset
                (node,
                  ((p6.addChild node base).addChild node trueExpr).addChild node falseExpr)
              else (NodeID.invalid, p5)
            | (Option.none, p4) => (NodeID.invalid, p4)
          else (NodeID.invalid, p3)
        | (Option.none, p2) => (base, p2)
      else (NodeID.invalid, p1)
    | .binF lvl =>
      let (left, p1) := Parser.parseRule fuel (.tighterF lvl) p
      if left.isValid then Parser.parseRule fuel (.binLoopF lvl left) p1
      else (NodeID.invalid, p1)
    | .binLoopF lvl left =>
      let (t, p1) := p.nextToken
      if (binaryOps lvl).contains t.fKind then
        let (right, p2) := Parser.parseRule fuel (.tighterF lvl) p1
        if right.isValid then
          let (node, p3) := p2.createNode (.binaryK t.fKind) t.fOffset
          Parser.parseRule fuel (.binLoopF lvl node)
            ((p3.addChild node left).addChild node right)
        else (NodeID.invalid, p2)
      else (left, p1.pushback t)
    | .tighterF lvl =>
      (match lvl with
       | .lor => Parser.parseRule fuel (.binF .lxor) p
       | .lxor => Parser.parseRule fuel (.binF .land) p
       | .land => Parser.parseRule fuel (.binF .bor) p
       | .bor => Parser.parseRule fuel (.binF .bxor) p
       | .bxor => Parser.parseRule fuel (.binF .band) p
       | .band => Parser.parseRule fuel (.binF .eq) p
       | .eq => Parser.parseRule fuel (.binF .rel) p
       | .rel => Parser.parseRule fuel (.binF .shift) p
       | .shift => Parser.parseRule fuel (.binF .add) p
       | .add => Parser.parseRule fuel (.binF .mul) p
       | .mul => Parser.parseRule fuel .unaryF p)
    | .unaryF =>
      let (t, p1) := p.nextToken
      if unaryOps.contains t.fKind then
        let (operand, p2) := Parser.parseRule fuel .unaryF p1
        if operand.isValid then
          let (node, p3) := p2.createNode (.unaryPreK t.fKind) t.fOffset
          (node, p3.addChild node operand)
        else (NodeID.invalid, p2)
      else
        Parser.parseRule fuel .postF (p1.pushback t)
    | .postF =>
      let (base, p1) := Parser.parseRule fuel .termF p
      if base.isValid then Parser.parseRule fuel (.sufLoopF base) p1
      else (NodeID.invalid, p1)
    | .sufLoopF base =>
      let (t, p1) := p.nextToken
      (match t.fKind with
       | .TK_LBRACKET =>
           let (e, p2) := Parser.parseRule fuel .exprF p1
           if e.isValid then
             match p2.expect .TK_RBRACKET "\x27]\x27" with
             | (some _, p3) =>
               let (node, p4) := p3.createNode .indexK t.fOffset
               Parser.parseRule fuel (.sufLoopF node)
                 ((p4.addChild node base).addChild node e)
             | (Option.none, p3) => (NodeID.invalid, p3)
           else (NodeID.invalid, p2)
       | .TK_DOT =>
           (match p1.expect .TK_IDENTIFIER "an identifier" with
            | (some idTok, p2) =>
              let (node, p3) := p2.createNode (.fieldK (p2.text idTok)) t.fOffset
              Parser.parseRule fuel (.sufLoopF node) (p3.addChild node base)
            | (Option.none, p2) => (NodeID.invalid, p2))
       | .TK_LPAREN =>
           let (node, p2) := p1.createNode .callK t.fOffset
           let p3 := p2.addChild node base
           (match p3.checkNext .TK_RPAREN with
            | (some _, p4) => Parser.parseRule fuel (.sufLoopF node) p4
            | (Option.none, p4) =>
                let (r, p5) := Parser.parseRule fuel (.argsF node) p4
                if r.isValid then Parser.parseRule fuel (.sufLoopF node) p5
                else (NodeID.invalid, p5))
       | .TK_PLUSPLUS =>
           let (node, p2) := p1.createNode (.unaryPostK t.fKind) t.fOffset
           Parser.parseRule fuel (.sufLoopF node) (p2.addChild node base)
       | .TK_MINUSMINUS =>
           let (node, p2) := p1.createNode (.unaryPostK t.fKind) t.fOffset
           Parser.parseRule fuel (.sufLoopF node) (p2.addChild node base)
       | _ => (base, p1.pushback t))
    | .argsF node =>
      let (arg, p1) := Parser.parseRule fuel .assignF p
      if arg.isValid then
        let p2 := p1.addChild node arg
        match p2.checkNext .TK_COMMA with
        | (some _, p3) => Parser.parseRule fuel (.argsF node) p3
        | (Option.none, p3) =>
            match p3.expect .TK_RPAREN "\x27)\x27" with
            | (some _, p4) => (node, p4)
            | (Option.none, p4) => (NodeID.invalid, p4)
      else (NodeID.invalid, p1)
    | .termF =>
      let (t, p1) := p.nextToken
      (match t.fKind with
       | .TK_IDENTIFIER =>
           p1.createNode (.identifierK (p1.text t)) t.fOffset
       | .TK_INT_LITERAL =>
           p1.createNode (.intLiteralK (parseIntText (p1.text t))) t.fOffset
       | .TK_FLOAT_LITERAL =>
           p1.createNode (.floatLiteralK (p1.text t)) t.fOffset
       | .TK_TRUE_LITERAL =>
           p1.createNode (.boolLiteralK true) t.fOffset
       | .TK_FALSE_LITERAL =>
           p1.createNode (.boolLiteralK false) t.fOffset
       | .TK_LPAREN =>
           let (e, p2) := Parser.parseRule fuel .exprF p1
           if e.isValid then
             match p2.expect .TK_RPAREN "\x27)\x27" with
             | (some _, p3) => (e, p3)
             | (Option.none, p3) => (NodeID.invalid, p3)
           else (NodeID.invalid, p2)
       | _ =>
           (NodeID.invalid, p1.errorAt "expected expression"))

/-- `Parser::expression`: the ladder entry. -/
def Parser.expression (fuel : Nat) (p : Parser) : NodeID × Parser :=
  Parser.parseRule fuel .exprF p

/-- `Parser::assignmentExpression`. -/
def Parser.assignmentExpression (fuel : Nat) (p : Parser) : NodeID × Parser :=
  Parser.parseRule fuel .assignF p

/-- `Parser::ternaryExpression`. -/
def Parser.ternaryExpression (fuel : Nat) (p : Parser) : NodeID × Parser :=
  Parser.parseRule fuel .ternaryF p

/-- `Parser::logicalOrExpression`. -/
def Parser.logicalOrExpression (fuel : Nat) (p : Parser) : NodeID × Parser :=
  Parser.parseRule fuel (.binF .lor) p

/-- `Parser::logicalXorExpression`. -/
def Parser.logicalXorExpression (fuel : Nat) (p : Parser) : NodeID × Parser :=
  Parser.parseRule fuel (.binF .lxor) p

/-- `Parser::logicalAndExpression`. -/
def Parser.logicalAndExpression (fuel : Nat) (p : Parser) : NodeID × Parser :=
  Parser.parseRule fuel (.binF .land) p

/-- `Parser::bitwiseOrExpression`. -/
def Parser.bitwiseOrExpression (fuel : Nat) (p : Parser) : NodeID × Parser :=
  Parser.parseRule fuel (.binF .bor) p

/-- `Parser::bitwiseXorExpression`. -/
def Parser.bitwiseXorExpression (fuel : Nat) (p : Parser) : NodeID × Parser :=
  Parser.parseRule fuel (.binF .bxor) p

/-- `Parser::bitwiseAndExpression`. -/
def Parser.bitwiseAndExpression (fuel : Nat) (p : Parser) : NodeID × Parser :=
  Parser.parseRule fuel (.binF .band) p

/-- `Parser::equalityExpression`. -/
def Parser.equalityExpression (fuel : Nat) (p : Parser) : NodeID × Parser :=
  Parser.parseRule fuel (.binF .eq) p

/-- `Parser::relationalExpression`. -/
def Parser.relationalExpression (fuel : Nat) (p : Parser) : NodeID × Parser :=
  Parser.parseRule fuel (.binF .rel) p

/-- `Parser::shiftExpression`. -/
def Parser.shiftExpression (fuel : Nat) (p : Parser) : NodeID × Parser :=
  Parser.parseRule fuel (.binF .shift) p

/-- `Parser::additiveExpression`. -/
def Parser.additiveExpression (fuel : Nat) (p : Parser) : NodeID × Parser :=
  Parser.parseRule fuel (.binF .add) p

/-- `Parser::multiplicativeExpression`. -/
def Parser.multiplicativeExpression (fuel : Nat) (p : Parser) : NodeID × Parser :=
  Parser.parseRule fuel (.binF .mul) p

/-- `Parser::unaryExpression`. -/
def Parser.unaryExpression (fuel : Nat) (p : Parser) : NodeID × Parser :=
  Parser.parseRule fuel .unaryF p

/-- `Parser::postfixExpression`. -/
def Parser.postfixExpression (fuel : Nat) (p : Parser) : NodeID × Parser :=
  Parser.parseRule fuel .postF p

/-- `Parser::term`. -/
def Parser.term (fuel : Nat) (p : Parser) : NodeID × Parser :=
  Parser.parseRule fuel .termF p

/-- `Parser::Checkpoint`: snapshots the pushback slot, the lexer's raw
position, the arena length and the diagnostic count (the four data members of
the inline class in the header). -/
structure Checkpoint where
  fPushbackCheckpoint : Token
  fLexerCheckpoint : Nat
  fASTCheckpoint : Nat
  fErrorCount : Nat
deriving DecidableEq

/-- The `Checkpoint` constructor: reads the four snapshotted values from the
parser, exactly as the inline constructor in the header does. -/
def Checkpoint.make (p : Parser) : Checkpoint :=
  { fPushbackCheckpoint := p.fPushback
  , fLexerCheckpoint := p.fLexer.getCheckpoint
  , fASTCheckpoint := p.fFile.fNodes.length
  , fErrorCount := p.fErrors.errorCount }

/-- `Checkpoint::rewind`: restores the pushback slot, rewinds the lexer,
resizes the node arena to the snapshotted length and resets the error count —
the four assignments of the inline body in the header, in order. -/
def Checkpoint.rewind (c : Checkpoint) (p : Parser) : Parser :=
  { p with
      fPushback := c.fPushbackCheckpoint
    , fLexer := p.fLexer.rewindToCheckpoint c.fLexerCheckpoint
    , fFile := { p.fFile with fNodes := vectorResize p.fFile.fNodes c.fASTCheckpoint }
    , fErrors := p.fErrors.setErrorCount c.fErrorCount }

/-- `Parser::LayoutToken`: the layout-qualifier keyword enumeration, exactly
the members listed in the sampled header. -/
inductive LayoutToken where
  | LOCATION
  | OFFSET
  | BINDING
  | INDEX
  | SET
  | BUILTIN
  | INPUT_ATTACHMENT_INDEX
  | ORIGIN_UPPER_LEFT
  | OVERRIDE_COVERAGE
  | EARLY_FRAGMENT_TESTS
  | BLEND_SUPPORT_ALL_EQUATIONS
  | PUSH_CONSTANT
  | POINTS
  | LINES
  | LINE_STRIP
  | LINES_ADJACENCY
  | TRIANGLES
  | TRIANGLE_STRIP
  | TRIANGLES_ADJACENCY
  | MAX_VERTICES
  | INVOCATIONS
  | MARKER
  | WHEN
  | KEY
  | TRACKED
  | SRGB_UNPREMUL
  | CTYPE
  | SKPMCOLOR4F
  | SKV4
  | SKRECT
  | SKIRECT
  | SKPMCOLOR
  | SKM44
  | BOOL
  | INT
  | FLOAT
deriving DecidableEq

/-- Modelled from the spec (§4.8): `Layout::CType`, the closed enumeration a
C-type-binding qualifier's identifier value is mapped to. -/
inductive CType where
  | skPMColor4f
  | skV4
  | skRect
  | skIRect
  | skPMColor
  | skM44
  | ctBool
  | ctInt
  | ctFloat
deriving DecidableEq

/-- Modelled from the spec (§3): the `Layout` value — optional integer, flag,
string and enumerated fields, each present or absent independently; absence
means "unspecified", not zero. -/
structure Layout where
  location : Option Int := Option.none
  offset : Option Int := Option.none
  binding : Option Int := Option.none
  index : Option Int := Option.none
  set : Option Int := Option.none
  builtin : Option Int := Option.none
  inputAttachmentIndex : Option Int := Option.none
  originUpperLeft : Bool := false
  overrideCoverage : Bool := false
  earlyFragmentTests : Bool := false
  blendSupportAllEquations : Bool := false
  pushConstant : Bool := false
  primitive : Option LayoutToken := Option.none
  maxVertices : Option Int := Option.none
  invocations : Option Int := Option.none
  marker : Option String := Option.none
  when : Option String := Option.none
  key : Bool := false
  tracked : Bool := false
  srgbUnpremul : Bool := false
  ctype : Option CType := Option.none
deriving DecidableEq

/-- The `Layout` value with every field absent/unspecified. -/
def Layout.empty : Layout := {}

/-- The static keyword-to-enum table built once by `Parser::InitLayoutMap`;
the key spellings are modelled from the spec (§4.8), the enum members are the
sampled header's `LayoutToken` list. -/
def layoutTokens : List (String × LayoutToken) :=
  [("location", .LOCATION), ("offset", .OFFSET), ("binding", .BINDING),
   ("index", .INDEX), ("set", .SET), ("builtin", .BUILTIN),
   ("input_attachment_index", .INPUT_ATTACHMENT_INDEX),
   ("origin_upper_left", .ORIGIN_UPPER_LEFT),
   ("override_coverage", .OVERRIDE_COVERAGE),
   ("early_fragment_tests", .EARLY_FRAGMENT_TESTS),
   ("blend_support_all_equations", .BLEND_SUPPORT_ALL_EQUATIONS),
   ("push_constant", .PUSH_CONSTANT),
   ("points", .POINTS), ("lines", .LINES), ("line_strip", .LINE_STRIP),
   ("lines_adjacency", .LINES_ADJACENCY), ("triangles", .TRIANGLES),
   ("triangle_strip", .TRIANGLE_STRIP),
   ("triangles_adjacency", .TRIANGLES_ADJACENCY),
   ("max_vertices", .MAX_VERTICES), ("invocations", .INVOCATIONS),
   ("marker", .MARKER), ("when", .WHEN), ("key", .KEY), ("tracked", .TRACKED),
   ("srgb_unpremul", .SRGB_UNPREMUL), ("ctype", .CTYPE),
   ("SkPMColor4f", .SKPMCOLOR4F), ("SkV4", .SKV4), ("SkRect", .SKRECT),
   ("SkIRect", .SKIRECT), ("SkPMColor", .SKPMCOLOR), ("SkM44", .SKM44),
   ("bool", .BOOL), ("int", .INT), ("float", .FLOAT)]

/-- Looks a layout keyword up in the once-built table. -/
def lookupLayoutToken (name : String) : Option LayoutToken :=
  (layoutTokens.find? (fun kv => kv.1 = name)).map (fun kv => kv.2)

/-- Modelled from the spec (§4.8): `Parser::layoutInt`, the integer-valued
qualifier sub-rule — expect `=` and an integer literal; absent on failure. -/
def Parser.layoutInt (p : Parser) : Option Int × Parser :=
  match p.expect .TK_EQ "\x27=\x27" with
  | (some _, p1) =>
    (match p1.expect .TK_INT_LITERAL "a non-negative integer" with
     | (some t, p2) => (some (parseIntText (p2.text t)), p2)
     | (Option.none, p2) => (Option.none, p2))
  | (Option.none, p1) => (Option.none, p1)

/-- Modelled from the spec (§4.8): `Parser::layoutIdentifier`, the
identifier-valued qualifier sub-rule. -/
def Parser.layoutIdentifier (p : Parser) : Option String × Parser :=
  match p.expect .TK_EQ "\x27=\x27" with
  | (some _, p1) =>
    (match p1.expectIdentifier with
     | (some t, p2) => (some (p2.text t), p2)
     | (Option.none, p2) => (Option.none, p2))
  | (Option.none, p1) => (Option.none, p1)

/-- Modelled from the spec (§4.8): `Parser::layoutCType`, mapping a restricted
set of identifier values to the closed `CType` enumeration; unrecognized
values are reported as errors. -/
def Parser.layoutCType (p : Parser) : Option CType × Parser :=
  match p.expect .TK_EQ "\x27=\x27" with
  | (some _, p1) =>
    (match p1.expect .TK_IDENTIFIER "a ctype" with
     | (some t, p2) =>
       (match lookupLayoutToken (p2.text t) with
        | some .SKPMCOLOR4F => (some .skPMColor4f, p2)
        | some .SKV4 => (some .skV4, p2)
        | some .SKRECT => (some .skRect, p2)
        | some .SKIRECT => (some .skIRect, p2)
        | some .SKPMCOLOR => (some .skPMColor, p2)
        | some .SKM44 => (some .skM44, p2)
        | some .BOOL => (some .ctBool, p2)
        | some .INT => (some .ctInt, p2)
        | some .FLOAT => (some .ctFloat, p2)
        | _ => (Option.none, p2.errorAt "unsupported ctype"))
     | (Option.none, p2) => (Option.none, p2))
  | (Option.none, p1) => (Option.none, p1)

/-- One step of the layout-qualifier list: reads a qualifier keyword, maps it
through the once-built table into the corresponding `Layout` field (via the
integer/identifier/ctype sub-rules), and reports an unrecognized keyword as an
error. -/
def Parser.layoutQualifier (l : Layout) (p : Parser) : Layout × Parser :=
  let (t, p1) := p.nextToken
  if t.fKind = TokenKind.TK_IDENTIFIER then
    let name := p1.text t
    match lookupLayoutToken name with
    | some .LOCATION => let (v, pn) := p1.layoutInt; ({ l with location := v }, pn)
    | some .OFFSET => let (v, pn) := p1.layoutInt; ({ l with offset := v }, pn)
    | some .BINDING => let (v, pn) := p1.layoutInt; ({ l with binding := v }, pn)
    | some .INDEX => let (v, pn) := p1.layoutInt; ({ l with index := v }, pn)
    | some .SET => let (v, pn) := p1.layoutInt; ({ l with set := v }, pn)
    | some .BUILTIN => let (v, pn) := p1.layoutInt; ({ l with builtin := v }, pn)
    | some .INPUT_ATTACHMENT_INDEX =>
        let (v, pn) := p1.layoutInt; ({ l with inputAttachmentIndex := v }, pn)
    | some .ORIGIN_UPPER_LEFT => ({ l with originUpperLeft := true }, p1)
    | some .OVERRIDE_COVERAGE => ({ l with overrideCoverage := true }, p1)
    | some .EARLY_FRAGMENT_TESTS => ({ l with earlyFragmentTests := true }, p1)
    | some .BLEND_SUPPORT_ALL_EQUATIONS =>
        ({ l with blendSupportAllEquations := true }, p1)
    | some .PUSH_CONSTANT => ({ l with pushConstant := true }, p1)
    | some .POINTS => ({ l with primitive := some .POINTS }, p1)
    | some .LINES => ({ l with primitive := some .LINES }, p1)
    | some .LINE_STRIP => ({ l with primitive := some .LINE_STRIP }, p1)
    | some .LINES_ADJACENCY => ({ l with primitive := some .LINES_ADJACENCY }, p1)
    | some .TRIANGLES => ({ l with primitive := some .TRIANGLES }, p1)
    | some .TRIANGLE_STRIP => ({ l with primitive := some .TRIANGLE_STRIP }, p1)
    | some .TRIANGLES_ADJACENCY =>
        ({ l with primitive := some .TRIANGLES_ADJACENCY }, p1)
    | some .MAX_VERTICES => let (v, pn) := p1.layoutInt; ({ l with maxVertices := v }, pn)
    | some .INVOCATIONS => let (v, pn) := p1.layoutInt; ({ l with invocations := v }, pn)
    | some .MARKER => let (v, pn) := p1.layoutIdentifier; ({ l with marker := v }, pn)
    | some .WHEN => let (v, pn) := p1.layoutIdentifier; ({ l with when := v }, pn)
    | some .KEY => ({ l with key := true }, p1)
    | some .TRACKED => ({ l with tracked := true }, p1)
    | some .SRGB_UNPREMUL => ({ l with srgbUnpremul := true }, p1)
    | some .CTYPE => let (v, pn) := p1.layoutCType; ({ l with ctype := v }, pn)
    | _ =>
        (l, p1.errorAt ("\x27" ++ name ++ "\x27 is not a valid layout qualifier"))
  else (l, p1.errorAt "expected a layout qualifier")

/-- The comma-separated qualifier list between the parentheses of a `layout`
clause, folded into a `Layout` value. -/
def Parser.layoutLoop : Nat → Layout → Parser → Layout × Parser
  | 0, l, p => (l, p)
  | fuel+1, l, p =>
    let (l2, p2) := Parser.layoutQualifier l p
    match p2.checkNext .TK_COMMA with
    | (some _, p3) => Parser.layoutLoop fuel l2 p3
    | (Option.none, p3) =>
        (match p3.expect .TK_RPAREN "\x27)\x27" with
         | (some _, p4) => (l2, p4)
         | (Option.none, p4) => (l2, p4))

/-- Modelled from the spec (§4.8, and the `Parser::layout` declaration in the
header): parses an optional bracketed, comma-separated layout-qualifier list
into a `Layout` value; without a leading `layout` token the empty `Layout` is
returned. -/
def Parser.layout (fuel : Nat) (p : Parser) : Layout × Parser :=
  match p.checkNext .TK_LAYOUT with
  | (some _, p1) =>
    (match p1.expect .TK_LPAREN "\x27(\x27" with
     | (some _, p2) => Parser.layoutLoop fuel Layout.empty p2
     | (Option.none, p2) => (Layout.empty, p2))
  | (Option.none, p1) => (Layout.empty, p1)

/-- Modelled from the spec (§4.7): a top-level declaration in the
variable-declaration form `type name ;` (the form the partial-result contract
is stated over); any other lookahead is consumed and reported as
"expected a declaration", returning the invalid node. -/
def Parser.declaration (p : Parser) : NodeID × Parser :=
  let (t, p1) := p.nextToken
  if t.fKind = TokenKind.TK_IDENTIFIER ∧ p1.isType (p1.text t) = true then
    match p1.expectIdentifier with
    | (some nameTok, p2) =>
      (match p2.expect .TK_SEMICOLON "\x27;\x27" with
       | (some _, p3) => p3.createNode (.varDeclK (p3.text t) (p3.text nameTok)) t.fOffset
       | (Option.none, p3) => (NodeID.invalid, p3))
    | (Option.none, p2) => (NodeID.invalid, p2)
  else (NodeID.invalid, p1.errorAt "expected a declaration")

/-- Modelled from the spec (§7): best-effort resynchronization at a
declaration boundary — skip tokens up to and including the next `;`, stopping
in front of end-of-input. -/
def Parser.resync : Nat → Parser → Parser
  | 0, p => p
  | fuel+1, p =>
    let (t, p1) := p.nextToken
    match t.fKind with
    | .TK_SEMICOLON => p1
    | .TK_END_OF_FILE => p1.pushback t
    | _ => Parser.resync fuel p1

/-- The top-level declaration loop of `Parser::compilationUnit`: until
end-of-input, parse a declaration; append it to the root sequence when valid,
otherwise resynchronize at the next declaration boundary and continue. -/
def Parser.compilationUnitLoop : Nat → Parser → Parser
  | 0, p => p
  | fuel+1, p =>
    let (t, p1) := p.peek
    if t.fKind = TokenKind.TK_END_OF_FILE then p1
    else
      let (d, p2) := p1.declaration
      if d.isValid then Parser.compilationUnitLoop fuel (p2.appendRoot d)
      else Parser.compilationUnitLoop fuel (Parser.resync fuel p2)

/-- Modelled from the spec (§6, and the header doc comment of
`Parser::compilationUnit`): consumes a complete file and returns the parse
tree; errors are reported via the error reporter and the returned compilation
unit may contain some declarations even when errors have occurred. -/
def Parser.compilationUnit (fuel : Nat) (p : Parser) : ASTFile × Parser :=
  let p1 := Parser.compilationUnitLoop fuel p
  (p1.fFile, p1)

/-- The arena-mutating parser operations the arena invariant is quantified
over: node creation, child linking, root appending, and a checkpoint rewind. -/
inductive ParserOp where
  | createOp (kind : NodeKind) (offset : Nat)
  | addChildOp (target : NodeID) (child : NodeID)
  | appendRootOp (r : NodeID)
  | rewindOp (c : Checkpoint)
deriving DecidableEq

/-- Applies one arena-mutating operation to the parser state, through the
embedded `createNode`/`addChild`/`appendRoot`/`Checkpoint::rewind`. -/
def Parser.applyOp (p : Parser) : ParserOp → Parser
  | .createOp kind offset => (p.createNode kind offset).2
  | .addChildOp target child => p.addChild target child
  | .appendRootOp r => p.appendRoot r
  | .rewindOp c => c.rewind p

/-- Arena well-formedness: every child identifier currently stored in any node
of the arena is a valid index strictly below the arena's length. -/
@[reducible] def wfArena (nodes : List ASTNode) : Prop :=
  ∀ n ∈ nodes, ∀ cid ∈ n.fChildren, 0 ≤ cid.fValue ∧ cid.fValue < (nodes.length : Int)

/-- The kind of the node an identifier denotes, if the identifier is valid and
in range. -/
def nodeKindAt (f : ASTFile) (id : NodeID) : Option NodeKind :=
  if 0 ≤ id.fValue then (f.fNodes.get? id.fValue.toNat).map (fun n => n.fKind)
  else Option.none

/-- The `i`-th child identifier of the node an identifier denotes. -/
def childAt (f : ASTFile) (id : NodeID) (i : Nat) : Option NodeID :=
  if 0 ≤ id.fValue then
    (f.fNodes.get? id.fValue.toNat).bind (fun n => n.fChildren.get? i)
  else Option.none

/-- A fresh parser over the given source text, token stream and declared type
names: depth 0, empty pushback slot, no errors, empty arena. -/
def mkParser (text : String) (toks : List Token) (types : List String) : Parser :=
  ⟨text, ⟨toks, 0⟩, 0, Token.none, types, ⟨[]⟩, ⟨[], []⟩⟩

/-- The token stream of the source `"a = b ? c || d : e & f"` (the lexer is a
black-box collaborator; offsets and lengths point into that source text). -/
def tokensC3 : List Token :=
  [⟨.TK_IDENTIFIER, 0, 1⟩, ⟨.TK_EQ, 2, 1⟩, ⟨.TK_IDENTIFIER, 4, 1⟩,
   ⟨.TK_QUESTION, 6, 1⟩, ⟨.TK_IDENTIFIER, 8, 1⟩, ⟨.TK_LOGICALOR, 10, 2⟩,
   ⟨.TK_IDENTIFIER, 13, 1⟩, ⟨.TK_COLON, 15, 1⟩, ⟨.TK_IDENTIFIER, 17, 1⟩,
   ⟨.TK_BITWISEAND, 19, 1⟩, ⟨.TK_IDENTIFIER, 21, 1⟩, ⟨.TK_END_OF_FILE, 22, 0⟩]

/-- A fresh parser over `"a = b ? c || d : e & f"`. -/
def parserC3 : Parser := mkParser "a = b ? c || d : e & f" tokensC3 []

/-- The token stream of `n` nested parentheses around the identifier `a`. -/
def nestedParenTokens (n : Nat) : List Token :=
  (List.range n).map (fun i => (⟨.TK_LPAREN, i, 1⟩ : Token))
    ++ [⟨.TK_IDENTIFIER, n, 1⟩]
    ++ (List.range n).map (fun i => (⟨.TK_RPAREN, n+1+i, 1⟩ : Token))
    ++ [⟨.TK_END_OF_FILE, 2*n+1, 0⟩]

/-- A fresh parser over sixty nested parentheses around `a` — adversarially
deep input exceeding the recursion limit. -/
def parserC2 : Parser :=
  mkParser (String.mk (List.replicate 60 '(' ++ ['a'] ++ List.replicate 60 ')'))
    (nestedParenTokens 60) []

/-- The token stream of `"int a; int b; int 3;"`: three top-level
declarations, the third containing a syntax error (an integer literal where
the declared name must be). -/
def tokensC4 : List Token :=
  [⟨.TK_IDENTIFIER, 0, 3⟩, ⟨.TK_IDENTIFIER, 4, 1⟩, ⟨.TK_SEMICOLON, 5, 1⟩,
   ⟨.TK_IDENTIFIER, 7, 3⟩, ⟨.TK_IDENTIFIER, 11, 1⟩, ⟨.TK_SEMICOLON, 12, 1⟩,
   ⟨.TK_IDENTIFIER, 14, 3⟩, ⟨.TK_INT_LITERAL, 18, 1⟩, ⟨.TK_SEMICOLON, 19, 1⟩,
   ⟨.TK_END_OF_FILE, 20, 0⟩]

/-- A fresh parser over `"int a; int b; int 3;"` with `int` a declared type. -/
def parserC4 : Parser := mkParser "int a; int b; int 3;" tokensC4 ["int"]

/-- The token stream of `"layout(location=2, binding=1)"`. -/
def tokensC8 : List Token :=
  [⟨.TK_LAYOUT, 0, 6⟩, ⟨.TK_LPAREN, 6, 1⟩, ⟨.TK_IDENTIFIER, 7, 8⟩,
   ⟨.TK_EQ, 15, 1⟩, ⟨.TK_INT_LITERAL, 16, 1⟩, ⟨.TK_COMMA, 17, 1⟩,
   ⟨.TK_IDENTIFIER, 19, 7⟩, ⟨.TK_EQ, 26, 1⟩, ⟨.TK_INT_LITERAL, 27, 1⟩,
   ⟨.TK_RPAREN, 28, 1⟩, ⟨.TK_END_OF_FILE, 29, 0⟩]

/-- A fresh parser over `"layout(location=2, binding=1)"`. -/
def parserC8 : Parser := mkParser "layout(location=2, binding=1)" tokensC8 []

/-- The token stream of `"layout(frobnicate)"` — an unrecognized layout
qualifier keyword. -/
def tokensC8bad : List Token :=
  [⟨.TK_LAYOUT, 0, 6⟩, ⟨.TK_LPAREN, 6, 1⟩, ⟨.TK_IDENTIFIER, 7, 10⟩,
   ⟨.TK_RPAREN, 17, 1⟩, ⟨.TK_END_OF_FILE, 18, 0⟩]

/-- A fresh parser over `"layout(frobnicate)"`. -/
def parserC8bad : Parser := mkParser "layout(frobnicate)" tokensC8bad []

/-- A one-token parser state used as a concrete checkpoint base. -/
def pW : Parser := mkParser "x" [⟨.TK_IDENTIFIER, 0, 1⟩] []

/-- The state `pW` reaches after consuming its token, appending one node to
the arena and reporting one error — a state to rewind from. -/
def qW : Parser :=
  { pW with
      fLexer := { pW.fLexer with fPos := 1 }
    , fFile := { fNodes := [⟨.identifierK "x", 0, []⟩], fRoots := [] }
    , fErrors := ⟨["boom"]⟩ }

/-- A fresh parser whose next token is the identifier `float2`, with `float2`
a declared type name. -/
def parserC6 : Parser :=
  mkParser "float2" [⟨.TK_IDENTIFIER, 0, 6⟩, ⟨.TK_END_OF_FILE, 6, 0⟩] ["float2"]

/-- A parser state whose depth counter already sits at the recursion limit. -/
def pDeep : Parser := { mkParser "" [] [] with fDepth := maxParseDepth }

/-- A two-node arena (an identifier and a call node referencing it) used to
exercise the arena operations. -/
def pWArena : Parser :=
  { mkParser "x" [] [] with
      fFile := { fNodes := [⟨.identifierK "x", 0, []⟩, ⟨.callK, 0, [⟨0⟩]⟩], fRoots := [] } }

end SkSL

namespace SkSL

/-- Resizing a vector always yields exactly the requested length. -/
theorem length_vectorResize (l : List ASTNode) (n : Nat) :
    (vectorResize l n).length = n := by
  simp [vectorResize]
  omega


/-- Resizing a vector to its own length is the identity. -/
theorem vectorResize_of_length_eq (l : List ASTNode) (n : Nat) (h : l.length = n) :
    vectorResize l n = l := by
  subst h
  simp [vectorResize]


/-- Resizing twice to the same length equals resizing once. -/
theorem vectorResize_idem (l : List ASTNode) (n : Nat) :
    vectorResize (vectorResize l n) n = vectorResize l n :=
  vectorResize_of_length_eq _ _ (length_vectorResize l n)


/-- Rewinding twice to the same checkpoint equals rewinding once. -/
theorem Checkpoint.rewind_idem (c : Checkpoint) (q : Parser) :
    c.rewind (c.rewind q) = c.rewind q := by
  cases q with
  | mk fText fLexer fDepth fPushback fTypes fErrors fFile =>
    cases fLexer
    cases fErrors
    cases fFile
    simp [Checkpoint.rewind, Lexer.rewindToCheckpoint, ErrorReporter.setErrorCount,
      vectorResize_idem, List.take_take]


/-- Claim C1: constructing a `Checkpoint` and calling `rewind()` restores the pushback slot, the lexer position, the node-arena length and the diagnostic count exactly to their values at checkpoint construction — for any state reached by appending nodes and reporting errors after the snapshot — discarding every node appended and retracting every error reported in between; a second `rewind()` on the same checkpoint without intervening parsing is a no-op. -/
theorem checkpoint_rewind_roundtrip
    (p q : Parser) (newNodes : List ASTNode) (newErrs : List String)
    (hnodes : q.fFile.fNodes = p.fFile.fNodes ++ newNodes)
    (herrs : q.fErrors.fErrorTexts = p.fErrors.fErrorTexts ++ newErrs) :
    ((Checkpoint.make p).rewind q).fPushback = p.fPushback ∧
    ((Checkpoint.make p).rewind q).fLexer.fPos = p.fLexer.fPos ∧
    ((Checkpoint.make p).rewind q).fFile.fNodes = p.fFile.fNodes ∧
    ((Checkpoint.make p).rewind q).fErrors.fErrorTexts = p.fErrors.fErrorTexts ∧
    ((Checkpoint.make p).rewind q).fFile.fNodes.length = p.fFile.fNodes.length ∧
    ((Checkpoint.make p).rewind q).fErrors.errorCount = p.fErrors.errorCount ∧
    (Checkpoint.make p).rewind ((Checkpoint.make p).rewind q) = (Checkpoint.make p).rewind q := by
  have hn : ((Checkpoint.make p).rewind q).fFile.fNodes = p.fFile.fNodes := by
    simp [Checkpoint.rewind, Checkpoint.make, vectorResize, hnodes]
  have he : ((Checkpoint.make p).rewind q).fErrors.fErrorTexts = p.fErrors.fErrorTexts := by
    simp [Checkpoint.rewind, Checkpoint.make, ErrorReporter.setErrorCount,
      ErrorReporter.errorCount, herrs]
  refine ⟨rfl, rfl, hn, he, ?_, ?_, Checkpoint.rewind_idem _ _⟩
  · rw [hn]
  · simp [ErrorReporter.errorCount, he]


/-- Witness for C1: rewinding a concrete extended state restores the snapshot, and a second rewind is a no-op. -/
theorem checkpoint_rewind_roundtrip_witness :
    ((Checkpoint.make pW).rewind qW).fFile.fNodes = pW.fFile.fNodes ∧
    ((Checkpoint.make pW).rewind qW).fErrors.fErrorTexts = pW.fErrors.fErrorTexts ∧
    (Checkpoint.make pW).rewind ((Checkpoint.make pW).rewind qW)
      = (Checkpoint.make pW).rewind qW := by
  have h := checkpoint_rewind_roundtrip pW qW [⟨.identifierK "x", 0, []⟩] ["boom"]
    (by decide) (by decide)
  exact ⟨h.2.2.1, h.2.2.2.1, h.2.2.2.2.2.2⟩


/-- Claim C10: `Checkpoint::rewind` restores exactly the four snapshotted values — pushback token, lexer position, arena length and error count — and leaves every other parser field unchanged; in particular `fDepth` is not part of the snapshot, so a rewind performed while nested inside recursive rules does not reset the depth guard. -/
theorem rewind_restores_exactly_four
    (c : Checkpoint) (q : Parser)
    (hcnt : c.fErrorCount ≤ q.fErrors.errorCount) :
    (c.rewind q).fPushback = c.fPushbackCheckpoint ∧
    (c.rewind q).fLexer.fPos = c.fLexerCheckpoint ∧
    (c.rewind q).fFile.fNodes.length = c.fASTCheckpoint ∧
    (c.rewind q).fErrors.errorCount = c.fErrorCount ∧
    (c.rewind q).fDepth = q.fDepth ∧
    (c.rewind q).fText = q.fText ∧
    (c.rewind q).fTypes = q.fTypes ∧
    (c.rewind q).fLexer.fTokens = q.fLexer.fTokens ∧
    (c.rewind q).fFile.fRoots = q.fFile.fRoots := by
  refine ⟨rfl, rfl, length_vectorResize _ _, ?_, rfl, rfl, rfl, rfl, rfl⟩
  simp [Checkpoint.rewind, ErrorReporter.setErrorCount, ErrorReporter.errorCount] at hcnt ⊢
  omega


/-- Witness for C10 at a concrete checkpoint and state. -/
theorem rewind_restores_exactly_four_witness :
    ((Checkpoint.make pW).rewind qW).fErrors.errorCount = (Checkpoint.make pW).fErrorCount ∧
    ((Checkpoint.make pW).rewind qW).fDepth = qW.fDepth := by
  have h := rewind_restores_exactly_four (Checkpoint.make pW) qW (by decide)
  exact ⟨h.2.2.2.1, h.2.2.2.2.1⟩


/-- Reading the next token returns the head of the pending stream and consumes exactly it, leaving the text, errors, depth, arena and type table untouched. -/
theorem nextToken_view (p : Parser) (t : Token) (rest : List Token)
    (h : p.streamView = t :: rest) :
    (p.nextToken).1 = t ∧ (p.nextToken).2.streamView = rest ∧
    (p.nextToken).2.fText = p.fText ∧ (p.nextToken).2.fErrors = p.fErrors ∧
    (p.nextToken).2.fDepth = p.fDepth ∧ (p.nextToken).2.fFile = p.fFile ∧
    (p.nextToken).2.fTypes = p.fTypes ∧
    (p.nextToken).2.fPushback.fKind = TokenKind.TK_NONE ∧
    (p.nextToken).2.fLexer.fTokens = p.fLexer.fTokens := by
  by_cases hp : p.fPushback.fKind = TokenKind.TK_NONE
  · have hdrop : p.fLexer.fTokens.drop p.fLexer.fPos = t :: rest := by
      simpa [Parser.streamView, hp] using h
    have hget : p.fLexer.fTokens[p.fLexer.fPos]? = some t := by
      rw [← List.head?_drop, hdrop]
      rfl
    have hdrop1 : p.fLexer.fTokens.drop (p.fLexer.fPos + 1) = rest := by
      rw [← List.tail_drop, hdrop]
      rfl
    simp [Parser.nextToken, hp, Lexer.next, hget, Parser.streamView, Token.none, hdrop1]
  · have h1 : p.fPushback = t := by
      simp [Parser.streamView, hp] at h
      exact h.1
    have h2 : p.fLexer.fTokens.drop p.fLexer.fPos = rest := by
      simp [Parser.streamView, hp] at h
      exact h.2
    have ht : t.fKind ≠ TokenKind.TK_NONE := h1 ▸ hp
    simp [Parser.nextToken, hp, Parser.streamView, Token.none, h1, h2, ht]


/-- Existential repackaging of the previous lemma for rule proofs. -/
theorem nextToken_dest (p : Parser) (t : Token) (rest : List Token)
    (h : p.streamView = t :: rest) :
    ∃ p1 : Parser, p.nextToken = (t, p1) ∧ p1.streamView = rest ∧
      p1.fText = p.fText ∧ p1.fErrors = p.fErrors ∧ p1.fDepth = p.fDepth ∧
      p1.fFile = p.fFile ∧ p1.fTypes = p.fTypes ∧
      p1.fPushback.fKind = TokenKind.TK_NONE ∧
      p1.fLexer.fTokens = p.fLexer.fTokens := by
  obtain ⟨h1, h2, h3, h4, h5, h6, h7, h8, h9⟩ := nextToken_view p t rest h
  refine ⟨(p.nextToken).2, ?_, h2, h3, h4, h5, h6, h7, h8, h9⟩
  rw [← h1]


/-- Claim C5: when `expect` is called and the next stream token does not match the expected kind, the token is still consumed — the pending stream advances by exactly one token — exactly one diagnostic of the form "expected <description>, but found '<actual text>'" is recorded, and failure is returned. -/
theorem expect_mismatch_consumes (p : Parser) (kind : TokenKind) (expected : String)
    (t : Token) (rest : List Token)
    (hview : p.streamView = t :: rest)
    (hmis : t.fKind ≠ kind) :
    (p.expect kind expected).1 = Option.none ∧
    (p.expect kind expected).2.streamView = rest ∧
    (p.expect kind expected).2.fErrors.fErrorTexts
      = p.fErrors.fErrorTexts ++
        ["expected " ++ expected ++ ", but found \x27" ++ p.text t ++ "\x27"] := by
  obtain ⟨p1, hE, h2, h3, h4, h5, h6, h7, h8, h9⟩ := nextToken_dest p t rest hview
  have htext : p1.text t = p.text t := by
    simp [Parser.text, h3]
  have hbody : p.expect kind expected
      = (Option.none,
          p1.errorAt ("expected " ++ expected ++ ", but found \x27" ++ p1.text t ++ "\x27")) := by
    simp only [Parser.expect, hE, if_neg hmis]
  rw [hbody]
  refine ⟨rfl, ?_, ?_⟩
  · show p1.streamView = rest
    exact h2
  · show (p1.fErrors.error _).fErrorTexts = _
    simp [ErrorReporter.error, h4, htext]


/-- Witness for C5: expecting a semicolon where the identifier `a` sits. -/
theorem expect_mismatch_consumes_witness :
    (parserC3.expect TokenKind.TK_SEMICOLON "x").1 = Option.none ∧
    (parserC3.expect TokenKind.TK_SEMICOLON "x").2.streamView = tokensC3.drop 1 ∧
    (parserC3.expect TokenKind.TK_SEMICOLON "x").2.fErrors.fErrorTexts
      = ["expected x, but found \x27a\x27"] := by
  have h := expect_mismatch_consumes parserC3 TokenKind.TK_SEMICOLON "x"
    ⟨.TK_IDENTIFIER, 0, 1⟩ (tokensC3.drop 1) (by decide) (by decide)
  refine ⟨h.1, h.2.1, ?_⟩
  rw [h.2.2]
  rfl


/-- Claim C7: when `checkNext` probes a token whose kind does not match, it pushes the token back and returns failure without emitting any diagnostic, leaving the pending token stream, the error state, the arena and the depth counter exactly as they were; when the kind matches, the token is consumed and returned. -/
theorem checkNext_nonCommittal (p : Parser) (kind : TokenKind)
    (t : Token) (rest : List Token)
    (hview : p.streamView = t :: rest)
    (hnone : t.fKind ≠ TokenKind.TK_NONE) :
    (t.fKind ≠ kind →
      (p.checkNext kind).1 = Option.none ∧
      (p.checkNext kind).2.streamView = p.streamView ∧
      (p.checkNext kind).2.fErrors = p.fErrors ∧
      (p.checkNext kind).2.fFile = p.fFile ∧
      (p.checkNext kind).2.fDepth = p.fDepth) ∧
    (t.fKind = kind →
      (p.checkNext kind).1 = some t ∧
      (p.checkNext kind).2.streamView = rest ∧
      (p.checkNext kind).2.fErrors = p.fErrors) := by
  obtain ⟨p1, hE, h2, h3, h4, h5, h6, h7, h8, h9⟩ := nextToken_dest p t rest hview
  constructor
  · intro hmis
    have hbody : p.checkNext kind = (Option.none, p1.pushback t) := by
      simp only [Parser.checkNext, hE, if_neg hmis]
    rw [hbody]
    have hrest : p1.fLexer.fTokens.drop p1.fLexer.fPos = rest := by
      simpa [Parser.streamView, h8] using h2
    have hpview : (p1.pushback t).streamView = t :: rest := by
      simp [Parser.pushback, Parser.streamView, hnone, hrest]
    exact ⟨rfl, by rw [hpview, hview], h4, h6, h5⟩
  · intro hmatch
    have hbody : p.checkNext kind = (some t, p1) := by
      simp only [Parser.checkNext, hE, if_pos hmatch]
    rw [hbody]
    exact ⟨rfl, h2, h4⟩


/-- Witness for C7: probing a mismatching and then a matching kind at a concrete state. -/
theorem checkNext_nonCommittal_witness :
    (parserC3.checkNext TokenKind.TK_COLON).1 = Option.none ∧
    (parserC3.checkNext TokenKind.TK_COLON).2.streamView = parserC3.streamView ∧
    (parserC3.checkNext TokenKind.TK_COLON).2.fErrors = parserC3.fErrors ∧
    (parserC3.checkNext TokenKind.TK_IDENTIFIER).1 = some ⟨.TK_IDENTIFIER, 0, 1⟩ ∧
    (parserC3.checkNext TokenKind.TK_IDENTIFIER).2.streamView = tokensC3.drop 1 := by
  have h1 := checkNext_nonCommittal parserC3 TokenKind.TK_COLON
    ⟨.TK_IDENTIFIER, 0, 1⟩ (tokensC3.drop 1) (by decide) (by decide)
  have h2 := checkNext_nonCommittal parserC3 TokenKind.TK_IDENTIFIER
    ⟨.TK_IDENTIFIER, 0, 1⟩ (tokensC3.drop 1) (by decide) (by decide)
  obtain ⟨m1, _⟩ := h1
  obtain ⟨-, m2⟩ := h2
  have hm1 := m1 (by decide)
  have hm2 := m2 (by decide)
  exact ⟨hm1.1, hm1.2.1, hm1.2.2.1, hm2.1, hm2.2.1⟩


/-- Claim C6: for every identifier token whose text names a declared type, `expectIdentifier` fails, and the diagnostic it reports is "expected an identifier, but found type '<name>'", whose text contains the words "expected an identifier" and "type" together with the type's name. -/
theorem expectIdentifier_rejects_type (p : Parser)
    (t : Token) (rest : List Token)
    (hview : p.streamView = t :: rest)
    (hkind : t.fKind = TokenKind.TK_IDENTIFIER)
    (htype : p.isType (p.text t) = true) :
    (p.expectIdentifier).1 = Option.none ∧
    (p.expectIdentifier).2.fErrors.fErrorTexts
      = p.fErrors.fErrorTexts ++
        ["expected an identifier, but found type \x27" ++ p.text t ++ "\x27"] ∧
    ("expected an identifier").data
      <:+: ("expected an identifier, but found type \x27" ++ p.text t ++ "\x27").data ∧
    ("type").data
      <:+: ("expected an identifier, but found type \x27" ++ p.text t ++ "\x27").data ∧
    (p.text t).data
      <:+: ("expected an identifier, but found type \x27" ++ p.text t ++ "\x27").data := by
  obtain ⟨p1, hE, h2, h3, h4, h5, h6, h7, h8, h9⟩ := nextToken_dest p t rest hview
  have htext : p1.text t = p.text t := by
    simp [Parser.text, h3]
  have htype1 : p1.isType (p1.text t) = true := by
    simp [Parser.isType, h7, htext]
    simpa [Parser.isType] using htype
  have hbody : p.expectIdentifier
      = (Option.none,
          p1.errorAt ("expected an identifier, but found type \x27" ++ p1.text t ++ "\x27")) := by
    simp only [Parser.expectIdentifier, Parser.expect, hE, if_pos hkind, htype1, if_pos]
  rw [hbody]
  have hmsg : ∀ s : String,
      ("expected an identifier, but found type \x27" ++ s ++ "\x27").data
        = ("expected an identifier, but found type \x27").data ++ s.data ++ ("\x27").data := by
    intro s
    rfl
  refine ⟨rfl, ?_, ?_, ?_, ?_⟩
  · show (p1.fErrors.error _).fErrorTexts = _
    simp [ErrorReporter.error, h4, htext]
  · refine ⟨[], (", but found type \x27").data ++ (p.text t).data ++ ("\x27").data, ?_⟩
    rw [hmsg]
    simp
  · refine ⟨("expected an identifier, but found ").data,
      (" \x27").data ++ (p.text t).data ++ ("\x27").data, ?_⟩
    rw [hmsg]
    simp
  · refine ⟨("expected an identifier, but found type \x27").data, ("\x27").data, ?_⟩
    rw [hmsg]


/-- Witness for C6: `expectIdentifier` on the declared type name `float2`. -/
theorem expectIdentifier_rejects_type_witness :
    (parserC6.expectIdentifier).1 = Option.none ∧
    (parserC6.expectIdentifier).2.fErrors.fErrorTexts
      = ["expected an identifier, but found type \x27float2\x27"] := by
  have h := expectIdentifier_rejects_type parserC6
    ⟨.TK_IDENTIFIER, 0, 6⟩ [⟨.TK_END_OF_FILE, 6, 0⟩] (by decide) (by decide) (by decide)
  refine ⟨h.1, ?_⟩
  rw [h.2.1]
  rfl


/-- Claim C3: for the input "a = b ? c || d : e & f" the resulting AST has the assignment node outermost, the assignment's right child is the ternary node, and the ternary's false-branch child is a bitwise-and node — the §4.6 precedence chain with left-associative binary levels and right-associative assignment and ternary, with no error reported. -/
theorem expression_precedence_chain :
    nodeKindAt (Parser.expression 200 parserC3).2.fFile (Parser.expression 200 parserC3).1
      = some (.binaryK .TK_EQ) ∧
    ((childAt (Parser.expression 200 parserC3).2.fFile (Parser.expression 200 parserC3).1 1).bind
        (fun id2 => nodeKindAt (Parser.expression 200 parserC3).2.fFile id2))
      = some .ternaryK ∧
    (((childAt (Parser.expression 200 parserC3).2.fFile (Parser.expression 200 parserC3).1 1).bind
        (fun id2 => childAt (Parser.expression 200 parserC3).2.fFile id2 2)).bind
        (fun id3 => nodeKindAt (Parser.expression 200 parserC3).2.fFile id3))
      = some (.binaryK .TK_BITWISEAND) ∧
    (Parser.expression 200 parserC3).2.fErrors.errorCount = 0 := by
  decide


/-- Claim C4: `compilationUnit` always returns a usable compilation unit (the embedding is total and returns the `ASTFile` in every case); for input of three top-level declarations where only the third contains a syntax error, the returned unit's root sequence holds valid nodes for the first two declarations, and success is signalled through the error reporter's count, not the return value. -/
theorem compilationUnit_partial_result :
    (Parser.compilationUnit 20 parserC4).1.fRoots = [⟨0⟩, ⟨1⟩] ∧
    nodeKindAt (Parser.compilationUnit 20 parserC4).1 ⟨0⟩ = some (.varDeclK "int" "a") ∧
    nodeKindAt (Parser.compilationUnit 20 parserC4).1 ⟨1⟩ = some (.varDeclK "int" "b") ∧
    (Parser.compilationUnit 20 parserC4).2.fErrors.errorCount = 1 := by
  decide


/-- Claim C8: parsing "layout(location=2, binding=1)" produces a `Layout` value whose location field is 2 and whose binding field is 1, with every other field in its absent state and no error; each keyword is mapped through the once-built keyword table, and an unrecognized keyword in the list is reported as an error. -/
theorem layout_location_binding :
    (Parser.layout 20 parserC8).1
      = { Layout.empty with location := some 2, binding := some 1 } ∧
    (Parser.layout 20 parserC8).2.fErrors.fErrorTexts = [] ∧
    (Parser.layout 20 parserC8bad).1 = Layout.empty ∧
    (Parser.layout 20 parserC8bad).2.fErrors.fErrorTexts
      = ["\x27frobnicate\x27 is not a valid layout qualifier"] := by
  decide


/-- Characterization of `addChild`: length and roots are preserved, and every node of the result is an old node or an old node with the new child appended. -/
theorem addChild_spec (p : Parser) (target child : NodeID) :
    (p.addChild target child).fFile.fNodes.length = p.fFile.fNodes.length ∧
    (p.addChild target child).fFile.fRoots = p.fFile.fRoots ∧
    ∀ n ∈ (p.addChild target child).fFile.fNodes,
      n ∈ p.fFile.fNodes ∨
      ∃ m, m ∈ p.fFile.fNodes ∧ n.fChildren = m.fChildren ++ [child] := by
  unfold Parser.addChild
  split
  · rcases hget : p.fFile.fNodes.get? target.fValue.toNat with _ | node
    · simp only [hget]
      exact ⟨by trivial, by trivial, fun n hn => Or.inl hn⟩
    · simp only [hget]
      refine ⟨List.length_set _ _ _, by trivial, ?_⟩
      intro n hn
      rcases List.mem_or_eq_of_mem_set hn with h | h
      · exact Or.inl h
      · right
        exact ⟨node, List.get?_mem hget, by rw [h]⟩
  · exact ⟨by trivial, by trivial, fun n hn => Or.inl hn⟩


/-- Claim C9: (a) appending a fresh node and linking an in-range child preserve the arena invariant that every child identifier referenced by any node is strictly below the arena length; (b) no operation but a rewind shrinks the arena, and a rewind resizes it to exactly the length recorded at checkpoint construction; (c) the compilation unit's root sequence only ever grows by appending. -/
theorem arena_invariants
    (p : Parser) :
    (∀ kind offset, wfArena p.fFile.fNodes →
      wfArena (p.applyOp (.createOp kind offset)).fFile.fNodes) ∧
    (∀ target child, wfArena p.fFile.fNodes →
      0 ≤ child.fValue → child.fValue < (p.fFile.fNodes.length : Int) →
      wfArena (p.applyOp (.addChildOp target child)).fFile.fNodes) ∧
    (∀ kind offset,
      (p.applyOp (.createOp kind offset)).fFile.fNodes.length = p.fFile.fNodes.length + 1) ∧
    (∀ target child,
      (p.applyOp (.addChildOp target child)).fFile.fNodes.length = p.fFile.fNodes.length) ∧
    (∀ r, (p.applyOp (.appendRootOp r)).fFile.fNodes.length = p.fFile.fNodes.length) ∧
    (∀ p0 : Parser,
      (p.applyOp (.rewindOp (Checkpoint.make p0))).fFile.fNodes.length
        = p0.fFile.fNodes.length) ∧
    (∀ kind offset, (p.applyOp (.createOp kind offset)).fFile.fRoots = p.fFile.fRoots) ∧
    (∀ target child, (p.applyOp (.addChildOp target child)).fFile.fRoots = p.fFile.fRoots) ∧
    (∀ r, (p.applyOp (.appendRootOp r)).fFile.fRoots = p.fFile.fRoots ++ [r]) ∧
    (∀ c, (p.applyOp (.rewindOp c)).fFile.fRoots = p.fFile.fRoots) := by
  refine ⟨?_, ?_, ?_, ?_, ?_, ?_, ?_, ?_, ?_, ?_⟩
  · intro kind offset hwf
    intro n hn cid hcid
    simp only [Parser.applyOp, Parser.createNode] at hn ⊢
    rw [List.mem_append] at hn
    rcases hn with hn | hn
    · obtain ⟨hc1, hc2⟩ := hwf n hn cid hcid
      refine ⟨hc1, ?_⟩
      simp only [List.length_append, List.length_cons, List.length_nil]
      omega
    · simp at hn
      subst hn
      simp at hcid
  · intro target child hwf hc1 hc2
    obtain ⟨hlen, _, hmem⟩ := addChild_spec p target child
    intro n hn cid hcid
    show 0 ≤ cid.fValue ∧ cid.fValue < ((p.addChild target child).fFile.fNodes.length : Int)
    rw [hlen]
    rcases hmem n hn with h | ⟨m, hm, hch⟩
    · exact hwf n h cid hcid
    · rw [hch, List.mem_append] at hcid
      rcases hcid with hcid | hcid
      · exact hwf m hm cid hcid
      · simp at hcid
        subst hcid
        exact ⟨hc1, hc2⟩
  · intro kind offset
    simp [Parser.applyOp, Parser.createNode]
  · intro target child
    exact (addChild_spec p target child).1
  · intro r
    rfl
  · intro p0
    simp [Parser.applyOp, Checkpoint.rewind, Checkpoint.make, length_vectorResize]
  · intro kind offset
    rfl
  · intro target child
    exact (addChild_spec p target child).2.1
  · intro r
    rfl
  · intro c
    rfl


/-- Witness for C9 on a concrete two-node arena. -/
theorem arena_invariants_witness :
    wfArena (pWArena.applyOp (.createOp .ternaryK 0)).fFile.fNodes ∧
    wfArena (pWArena.applyOp (.addChildOp ⟨1⟩ ⟨0⟩)).fFile.fNodes ∧
    (pWArena.applyOp (.addChildOp ⟨1⟩ ⟨0⟩)).fFile.fNodes.length
      = pWArena.fFile.fNodes.length ∧
    (pWArena.applyOp (.rewindOp (Checkpoint.make pW))).fFile.fNodes.length
      = pW.fFile.fNodes.length ∧
    (pWArena.applyOp (.appendRootOp ⟨1⟩)).fFile.fRoots = pWArena.fFile.fRoots ++ [⟨1⟩] := by
  have h := arena_invariants pWArena
  exact ⟨h.1 .ternaryK 0 (by decide), h.2.1 ⟨1⟩ ⟨0⟩ (by decide) (by decide) (by decide),
    h.2.2.2.1 ⟨1⟩ ⟨0⟩, h.2.2.2.2.2.1 pW, h.2.2.2.2.2.2.2.2.1 ⟨1⟩⟩


/-- Reading a token never changes the depth counter. -/
theorem fDepth_nextToken (p : Parser) : (p.nextToken).2.fDepth = p.fDepth := by
  unfold Parser.nextToken Lexer.next
  split
  · rfl
  · split <;> rfl


/-- The `expect` matcher never changes the depth counter. -/
theorem fDepth_expect (p : Parser) (k : TokenKind) (e : String) :
    (p.expect k e).2.fDepth = p.fDepth := by
  unfold Parser.expect
  rcases hE : p.nextToken with ⟨t, p1⟩
  have h : p1.fDepth = p.fDepth := by
    have hh := fDepth_nextToken p
    rw [hE] at hh
    exact hh
  dsimp only
  split
  · exact h
  · simpa [Parser.errorAt] using h


/-- The `checkNext` probe never changes the depth counter. -/
theorem fDepth_checkNext (p : Parser) (k : TokenKind) :
    (p.checkNext k).2.fDepth = p.fDepth := by
  unfold Parser.checkNext
  rcases hE : p.nextToken with ⟨t, p1⟩
  have h : p1.fDepth = p.fDepth := by
    have hh := fDepth_nextToken p
    rw [hE] at hh
    exact hh
  dsimp only
  split
  · exact h
  · simpa [Parser.pushback] using h


/-- Node creation never changes the depth counter. -/
theorem fDepth_createNode (p : Parser) (k : NodeKind) (off : Nat) :
    (p.createNode k off).2.fDepth = p.fDepth := rfl


/-- Child linking never changes the depth counter. -/
theorem fDepth_addChild (p : Parser) (a b : NodeID) :
    (p.addChild a b).fDepth = p.fDepth := by
  unfold Parser.addChild
  split
  · split <;> rfl
  · rfl


/-- The scoped depth counter is restored on every exit path of every rule invocation: each rule leaves `fDepth` exactly as it found it. -/
theorem parseRule_fDepth :
    ∀ fuel : Nat, ∀ fr : Frame, ∀ p : Parser,
      (Parser.parseRule fuel fr p).2.fDepth = p.fDepth := by
  intro fuel
  induction fuel with
  | zero =>
    intro fr p
    cases fr <;> rfl
  | succ fuel ih =>
    intro fr p
    cases fr with
    | exprF =>
      simp only [Parser.parseRule]
      split
      · simp_all [Parser.errorAt]
      · rcases h1 : Parser.parseRule fuel .assignF { p with fDepth := p.fDepth + 1 } with ⟨r, p2⟩
        have d1 := ih .assignF { p with fDepth := p.fDepth + 1 }
        rw [h1] at d1
        try simp only [h1]
        simp_all [d1]
    | assignF =>
      simp only [Parser.parseRule]
      rcases h1 : Parser.parseRule fuel .ternaryF p with ⟨left, p1⟩
      have d1 := ih .ternaryF p
      rw [h1] at d1
      try simp only [h1]
      split
      · rcases h2 : p1.nextToken with ⟨t, p2⟩
        have d2 := fDepth_nextToken p1
        rw [h2] at d2
        try simp only [h2]
        split
        · rcases h3 : Parser.parseRule fuel .assignF p2 with ⟨right, p3⟩
          have d3 := ih .assignF p2
          rw [h3] at d3
          try simp only [h3]
          split
          · rcases h4 : p3.createNode (.binaryK t.fKind) t.fOffset with ⟨node, p4⟩
            have d4 := fDepth_createNode p3 (.binaryK t.fKind) t.fOffset
            rw [h4] at d4
            try simp only [h4]
            simp_all [fDepth_addChild, d4, d3, d2, d1]
          · simp_all [d3, d2, d1]
        · simp_all [Parser.pushback, d2, d1]
      · simp_all
    | ternaryF =>
      simp only [Parser.parseRule]
      rcases h1 : Parser.parseRule fuel (.binF .lor) p with ⟨base, p1⟩
      have d1 := ih (.binF .lor) p
      rw [h1] at d1
      try simp only [h1]
      split
      · rcases h2 : p1.checkNext .TK_QUESTION with ⟨q?, p2⟩
        have d2 := fDepth_checkNext p1 .TK_QUESTION
        rw [h2] at d2
        try simp only [h2]
        rcases q? with _ | q
        · simp_all
        · rcases h3 : Parser.parseRule fuel .exprF p2 with ⟨trueExpr, p3⟩
          have d3 := ih .exprF p2
          rw [h3] at d3
          try simp only [h3]
          split
          · rcases h4 : p3.expect .TK_COLON "\x27:\x27" with ⟨c?, p4⟩
            have d4 := fDepth_expect p3 .TK_COLON "\x27:\x27"
            rw [h4] at d4
            try simp only [h4]
            rcases c? with _ | c
            · simp_all [d4, d3, d2, d1]
            · rcases h5 : Parser.parseRule fuel .assignF p4 with ⟨falseExpr, p5⟩
              have d5 := ih .assignF p4
              rw [h5] at d5
              try simp only [h5]
              split
              · rcases h6 : p5.createNode .ternaryK q.fOffset with ⟨node, p6⟩
                have d6 := fDepth_createNode p5 .ternaryK q.fOffset
                rw [h6] at d6
                try simp only [h6]
                simp_all [fDepth_addChild, d6, d5, d4, d3, d2, d1]
              · simp_all [d5, d4, d3, d2, d1]
          · simp_all [d3, d2, d1]
      · simp_all
    | binF lvl =>
      simp only [Parser.parseRule]
      rcases h1 : Parser.parseRule fuel (.tighterF lvl) p with ⟨left, p1⟩
      have d1 := ih (.tighterF lvl) p
      rw [h1] at d1
      try simp only [h1]
      split
      · have d2 := ih (.binLoopF lvl left) p1
        simp_all
      · simp_all
    | binLoopF lvl left =>
      simp only [Parser.parseRule]
      rcases h1 : p.nextToken with ⟨t, p1⟩
      have d1 := fDepth_nextToken p
      rw [h1] at d1
      try simp only [h1]
      split
      · rcases h2 : Parser.parseRule fuel (.tighterF lvl) p1 with ⟨right, p2⟩
        have d2 := ih (.tighterF lvl) p1
        rw [h2] at d2
        try simp only [h2]
        split
        · rcases h3 : p2.createNode (.binaryK t.fKind) t.fOffset with ⟨node, p3⟩
          have d3 := fDepth_createNode p2 (.binaryK t.fKind) t.fOffset
          rw [h3] at d3
          try simp only [h3]
          have d4 := ih (.binLoopF lvl node) ((p3.addChild node left).addChild node right)
          rw [d4]
          simp_all [fDepth_addChild, d3, d2, d1]
        · simp_all [d2, d1]
      · simp_all [Parser.pushback, d1]
    | tighterF lvl =>
      simp only [Parser.parseRule]
      cases lvl <;> exact ih _ p
    | unaryF =>
      simp only [Parser.parseRule]
      rcases h1 : p.nextToken with ⟨t, p1⟩
      have d1 := fDepth_nextToken p
      rw [h1] at d1
      try simp only [h1]
      split
      · rcases h2 : Parser.parseRule fuel .unaryF p1 with ⟨operand, p2⟩
        have d2 := ih .unaryF p1
        rw [h2] at d2
        try simp only [h2]
        split
        · rcases h3 : p2.createNode (.unaryPreK t.fKind) t.fOffset with ⟨node, p3⟩
          have d3 := fDepth_createNode p2 (.unaryPreK t.fKind) t.fOffset
          rw [h3] at d3
          try simp only [h3]
          simp_all [fDepth_addChild, d3, d2, d1]
        · simp_all [d2, d1]
      · have d2 := ih .postF (p1.pushback t)
        rw [d2]
        simp_all [Parser.pushback, d1]
    | postF =>
      simp only [Parser.parseRule]
      rcases h1 : Parser.parseRule fuel .termF p with ⟨base, p1⟩
      have d1 := ih .termF p
      rw [h1] at d1
      try simp only [h1]
      split
      · have d2 := ih (.sufLoopF base) p1
        simp_all
      · simp_all
    | sufLoopF base =>
      simp only [Parser.parseRule]
      rcases h1 : p.nextToken with ⟨t, p1⟩
      have d1 := fDepth_nextToken p
      rw [h1] at d1
      try simp only [h1]
      split
      · rcases h2 : Parser.parseRule fuel .exprF p1 with ⟨e, p2⟩
        have d2 := ih .exprF p1
        rw [h2] at d2
        try simp only [h2]
        split
        · rcases h3 : p2.expect .TK_RBRACKET "\x27]\x27" with ⟨rb?, p3⟩
          have d3 := fDepth_expect p2 .TK_RBRACKET "\x27]\x27"
          rw [h3] at d3
          try simp only [h3]
          rcases rb? with _ | rb
          · simp_all [d3, d2, d1]
          · rcases h4 : p3.createNode .indexK t.fOffset with ⟨node, p4⟩
            have d4 := fDepth_createNode p3 .indexK t.fOffset
            rw [h4] at d4
            try simp only [h4]
            have d5 := ih (.sufLoopF node) ((p4.addChild node base).addChild node e)
            rw [d5]
            simp_all [fDepth_addChild, d4, d3, d2, d1]
        · simp_all [d2, d1]
      · rcases h2 : p1.expect .TK_IDENTIFIER "an identifier" with ⟨id?, p2⟩
        have d2 := fDepth_expect p1 .TK_IDENTIFIER "an identifier"
        rw [h2] at d2
        try simp only [h2]
        rcases id? with _ | idTok
        · simp_all [d2, d1]
        · rcases h3 : p2.createNode (.fieldK (p2.text idTok)) t.fOffset with ⟨node, p3⟩
          have d3 := fDepth_createNode p2 (.fieldK (p2.text idTok)) t.fOffset
          rw [h3] at d3
          try simp only [h3]
          have d4 := ih (.sufLoopF node) (p3.addChild node base)
          rw [d4]
          simp_all [fDepth_addChild, d3, d2, d1]
      · rcases h2 : p1.createNode .callK t.fOffset with ⟨node, p2⟩
        have d2 := fDepth_createNode p1 .callK t.fOffset
        rw [h2] at d2
        try simp only [h2]
        rcases h3 : (p2.addChild node base).checkNext .TK_RPAREN with ⟨rp?, p4⟩
        have d3 := fDepth_checkNext (p2.addChild node base) .TK_RPAREN
        rw [h3] at d3
        try simp only [h3]
        rcases rp? with _ | rp
        · rcases h4 : Parser.parseRule fuel (.argsF node) p4 with ⟨r, p5⟩
          have d4 := ih (.argsF node) p4
          rw [h4] at d4
          try simp only [h4]
          split
          · have d5 := ih (.sufLoopF node) p5
            rw [d5]
            simp_all [fDepth_addChild, d4, d3, d2, d1]
          · simp_all [fDepth_addChild, d4, d3, d2, d1]
        · have d4 := ih (.sufLoopF node) p4
          rw [d4]
          simp_all [fDepth_addChild, d3, d2, d1]
      · rcases h2 : p1.createNode (.unaryPostK t.fKind) t.fOffset with ⟨node, p2⟩
        have d2 := fDepth_createNode p1 (.unaryPostK t.fKind) t.fOffset
        rw [h2] at d2
        try simp only [h2]
        have d3 := ih (.sufLoopF node) (p2.addChild node base)
        rw [d3]
        simp_all [fDepth_addChild, d2, d1]
      · rcases h2 : p1.createNode (.unaryPostK t.fKind) t.fOffset with ⟨node, p2⟩
        have d2 := fDepth_createNode p1 (.unaryPostK t.fKind) t.fOffset
        rw [h2] at d2
        try simp only [h2]
        have d3 := ih (.sufLoopF node) (p2.addChild node base)
        rw [d3]
        simp_all [fDepth_addChild, d2, d1]
      · simp_all [Parser.pushback, d1]
    | argsF node =>
      simp only [Parser.parseRule]
      rcases h1 : Parser.parseRule fuel .assignF p with ⟨arg, p1⟩
      have d1 := ih .assignF p
      rw [h1] at d1
      try simp only [h1]
      split
      · rcases h2 : (p1.addChild node arg).checkNext .TK_COMMA with ⟨c?, p3⟩
        have d2 := fDepth_checkNext (p1.addChild node arg) .TK_COMMA
        rw [h2] at d2
        try simp only [h2]
        rcases c? with _ | c
        · rcases h3 : p3.expect .TK_RPAREN "\x27)\x27" with ⟨rp?, p4⟩
          have d3 := fDepth_expect p3 .TK_RPAREN "\x27)\x27"
          rw [h3] at d3
          try simp only [h3]
          rcases rp? with _ | rp
          · simp_all [fDepth_addChild, d3, d2, d1]
          · simp_all [fDepth_addChild, d3, d2, d1]
        · have d3 := ih (.argsF node) p3
          rw [d3]
          simp_all [fDepth_addChild, d2, d1]
      · simp_all
    | termF =>
      simp only [Parser.parseRule]
      rcases h1 : p.nextToken with ⟨t, p1⟩
      have d1 := fDepth_nextToken p
      rw [h1] at d1
      try simp only [h1]
      split
      · simp_all [fDepth_createNode, d1]
      · simp_all [fDepth_createNode, d1]
      · simp_all [fDepth_createNode, d1]
      · simp_all [fDepth_createNode, d1]
      · simp_all [fDepth_createNode, d1]
      · rcases h2 : Parser.parseRule fuel .exprF p1 with ⟨e, p2⟩
        have d2 := ih .exprF p1
        rw [h2] at d2
        try simp only [h2]
        split
        · rcases h3 : p2.expect .TK_RPAREN "\x27)\x27" with ⟨rp?, p3⟩
          have d3 := fDepth_expect p2 .TK_RPAREN "\x27)\x27"
          rw [h3] at d3
          try simp only [h3]
          rcases rp? with _ | rp
          · simp_all [d3, d2, d1]
          · simp_all [d3, d2, d1]
        · simp_all [d2, d1]
      · simp_all [Parser.errorAt, d1]


/-- Claim C2: parsing terminates for every input (the embedded ladder is a total function); the depth counter, incremented on entry to the self-recursive `expression` rule, is decremented on every exit path so every rule invocation restores it; when the counter would exceed the fixed limit the parser reports the "nesting too deep" diagnostic and returns the invalid node instead of recursing further; on adversarially deep input — sixty nested parentheses — the parse returns the invalid node with that diagnostic. -/
theorem depth_guard_bounds_recursion :
    (∀ fuel : Nat, ∀ fr : Frame, ∀ p : Parser,
        (Parser.parseRule fuel fr p).2.fDepth = p.fDepth) ∧
    (∀ fuel : Nat, ∀ p : Parser, maxParseDepth ≤ p.fDepth →
        Parser.expression (fuel+1) p = (NodeID.invalid, p.errorAt nestingMsg)) ∧
    (Parser.expression 2048 parserC2).1 = NodeID.invalid ∧
    nestingMsg ∈ (Parser.expression 2048 parserC2).2.fErrors.fErrorTexts := by
  refine ⟨parseRule_fDepth, ?_, by decide, by decide⟩
  intro fuel p hd
  unfold Parser.expression
  simp only [Parser.parseRule]
  rw [if_pos (by simpa using Nat.lt_succ_of_le hd)]
  cases p
  simp [Parser.errorAt]


/-- Witness for C2: entering `expression` at the depth limit reports "nesting too deep" and returns the invalid node. -/
theorem depth_guard_bounds_recursion_witness :
    Parser.expression 3 pDeep = (NodeID.invalid, pDeep.errorAt nestingMsg) :=
  depth_guard_bounds_recursion.2.1 2 pDeep (by decide)

end SkSL
